import Mathlib

/-!
# Verification of the clay math library (`src/include/clay_math.hpp`)

Shallow embedding of the `Vec3`/`Vec4`/`Quat`/`Mat4` value types and the
operations of `clay_math.hpp`.  The C++ code computes with IEEE-754
single-precision floats; the embedding models the arithmetic exactly:

* operations that use only `+ - * /` are modelled over `ℚ` (computable,
  decidable equality), translated expression-for-expression from the source;
* operations that use `sqrt`, `sin`, `cos`, `acos` are modelled over `ℝ`
  (suffix `R` on the type names), again translated expression-for-expression;
* an IEEE division whose divisor is zero produces a non-finite value
  (`NaN`/`Inf`); where a claim is about that behaviour the division is
  modelled as an `Option`-valued operation returning `none` exactly when the
  divisor is zero (`none` stands for "the result is non-finite").

Member functions that mutate the receiver in C++ (`translate`, `scale`) are
modelled as functions returning the updated receiver, built from the same
sequence of element assignments (`Function.update`) as the source.  Member
functions that only read the receiver additionally get a `...Run`
state-passing form returning `(result, post-state of the receiver)`; the
source bodies of `determinant`, `transpose`, `cofactor` and `inverse` contain
no assignment to `this->data` (they write only to locals and to the returned
temporary), so threading the receiver through the translated body leaves it
unchanged and the post-state component is the incoming receiver.
-/

/-- `Vec3` of `clay_math.hpp`: three floats `x, y, z`, modelled over `ℚ`. -/
structure Vec3 where
  x : ℚ
  y : ℚ
  z : ℚ
deriving DecidableEq

/-- `Vec4` of `clay_math.hpp`: four floats `x, y, z, w`, modelled over `ℚ`. -/
structure Vec4 where
  x : ℚ
  y : ℚ
  z : ℚ
  w : ℚ
deriving DecidableEq

/-- `Quat` of `clay_math.hpp`: four floats `i, j, k, r`, modelled over `ℚ`. -/
structure Quat where
  i : ℚ
  j : ℚ
  k : ℚ
  r : ℚ
deriving DecidableEq

/-- `Mat4` of `clay_math.hpp`: a flat array `float data[16]`, modelled as a
function `Fin 16 → ℚ`. -/
@[ext]
structure Mat4 where
  data : Fin 16 → ℚ

instance : DecidableEq Mat4 := fun a b =>
  decidable_of_iff (a.data = b.data) (by cases a; cases b; simp)

/-- The 16-argument `Mat4` constructor: `data[0] = m00; ... data[15] = m33;`
(argument names exactly as in the source). -/
def Mat4.mk16 (m00 m01 m02 m03 m10 m11 m12 m13
    m20 m21 m22 m23 m30 m31 m32 m33 : ℚ) : Mat4 :=
  ⟨fun p => match p with
    | ⟨0, _⟩ => m00
    | ⟨1, _⟩ => m01
    | ⟨2, _⟩ => m02
    | ⟨3, _⟩ => m03
    | ⟨4, _⟩ => m10
    | ⟨5, _⟩ => m11
    | ⟨6, _⟩ => m12
    | ⟨7, _⟩ => m13
    | ⟨8, _⟩ => m20
    | ⟨9, _⟩ => m21
    | ⟨10, _⟩ => m22
    | ⟨11, _⟩ => m23
    | ⟨12, _⟩ => m30
    | ⟨13, _⟩ => m31
    | ⟨14, _⟩ => m32
    | ⟨15, _⟩ => m33
    | ⟨n + 16, h⟩ => absurd h (by omega)⟩

/-- `Mat4::identity()`: ones on the diagonal entries `0, 5, 10, 15`. -/
def Mat4.identity : Mat4 :=
  Mat4.mk16 1 0 0 0
            0 1 0 0
            0 0 1 0
            0 0 0 1

/-- `Mat4::ortho(left, right, bottom, top, near, far)`: starts from
`Mat4::identity()` and overwrites entries `0, 5, 10, 12, 13, 14` with the
orthographic-projection terms, exactly as in the source. -/
def Mat4.ortho (left right bottom top near far : ℚ) : Mat4 :=
  let result := Mat4.identity
  let d := Function.update result.data 0 (2 / (right - left))
  let d := Function.update d 5 (2 / (top - bottom))
  let d := Function.update d 10 (-2 / (far - near))
  let d := Function.update d 12 (-(right + left) / (right - left))
  let d := Function.update d 13 (-(top + bottom) / (top - bottom))
  let d := Function.update d 14 (-(far + near) / (far - near))
  ⟨d⟩

/-- `Mat4::operator*(const Mat4 &other)`:
`result.data[i*4+j] = data[i*4+0]*other.data[j+0] + data[i*4+1]*other.data[j+4]
 + data[i*4+2]*other.data[j+8] + data[i*4+3]*other.data[j+12]`,
written as a function of the flat index `p = i*4+j` (so `i = p / 4`,
`j = p % 4`). -/
def Mat4.mul (a b : Mat4) : Mat4 :=
  ⟨fun p =>
    a.data ⟨p.val / 4 * 4 + 0, by have := p.isLt; omega⟩ *
      b.data ⟨p.val % 4 + 0, by have := p.isLt; omega⟩ +
    a.data ⟨p.val / 4 * 4 + 1, by have := p.isLt; omega⟩ *
      b.data ⟨p.val % 4 + 4, by have := p.isLt; omega⟩ +
    a.data ⟨p.val / 4 * 4 + 2, by have := p.isLt; omega⟩ *
      b.data ⟨p.val % 4 + 8, by have := p.isLt; omega⟩ +
    a.data ⟨p.val / 4 * 4 + 3, by have := p.isLt; omega⟩ *
      b.data ⟨p.val % 4 + 12, by have := p.isLt; omega⟩⟩

/-- `Mat4::transpose()`: returns
`Mat4(data[0], data[4], data[8], data[12], data[1], ..., data[15])`. -/
def Mat4.transpose (m : Mat4) : Mat4 :=
  Mat4.mk16 (m.data 0) (m.data 4) (m.data 8) (m.data 12)
            (m.data 1) (m.data 5) (m.data 9) (m.data 13)
            (m.data 2) (m.data 6) (m.data 10) (m.data 14)
            (m.data 3) (m.data 7) (m.data 11) (m.data 15)

/-- `Mat4::cofactor()`: the sixteen signed 3×3-minor expressions assigned to
`result.data[0] .. result.data[15]`, copied term-for-term from the source. -/
def Mat4.cofactor (m : Mat4) : Mat4 :=
  Mat4.mk16
    (m.data 5 * (m.data 10 * m.data 15 - m.data 11 * m.data 14) -
      m.data 6 * (m.data 9 * m.data 15 - m.data 11 * m.data 13) +
      m.data 7 * (m.data 9 * m.data 14 - m.data 10 * m.data 13))
    (-(m.data 4 * (m.data 10 * m.data 15 - m.data 11 * m.data 14) -
      m.data 6 * (m.data 8 * m.data 15 - m.data 11 * m.data 12) +
      m.data 7 * (m.data 8 * m.data 14 - m.data 10 * m.data 12)))
    (m.data 4 * (m.data 9 * m.data 15 - m.data 11 * m.data 13) -
      m.data 5 * (m.data 8 * m.data 15 - m.data 11 * m.data 12) +
      m.data 7 * (m.data 8 * m.data 13 - m.data 9 * m.data 12))
    (-(m.data 4 * (m.data 9 * m.data 14 - m.data 10 * m.data 13) -
      m.data 5 * (m.data 8 * m.data 14 - m.data 10 * m.data 12) +
      m.data 6 * (m.data 8 * m.data 13 - m.data 9 * m.data 12)))
    (-(m.data 1 * (m.data 10 * m.data 15 - m.data 11 * m.data 14) -
      m.data 2 * (m.data 9 * m.data 15 - m.data 11 * m.data 13) +
      m.data 3 * (m.data 9 * m.data 14 - m.data 10 * m.data 13)))
    (m.data 0 * (m.data 10 * m.data 15 - m.data 11 * m.data 14) -
      m.data 2 * (m.data 8 * m.data 15 - m.data 11 * m.data 12) +
      m.data 3 * (m.data 8 * m.data 14 - m.data 10 * m.data 12))
    (-(m.data 0 * (m.data 9 * m.data 15 - m.data 11 * m.data 13) -
      m.data 1 * (m.data 8 * m.data 15 - m.data 11 * m.data 12) +
      m.data 3 * (m.data 8 * m.data 13 - m.data 9 * m.data 12)))
    (m.data 0 * (m.data 9 * m.data 14 - m.data 10 * m.data 13) -
      m.data 1 * (m.data 8 * m.data 14 - m.data 10 * m.data 12) +
      m.data 2 * (m.data 8 * m.data 13 - m.data 9 * m.data 12))
    (m.data 1 * (m.data 6 * m.data 15 - m.data 7 * m.data 14) -
      m.data 2 * (m.data 5 * m.data 15 - m.data 7 * m.data 13) +
      m.data 3 * (m.data 5 * m.data 14 - m.data 6 * m.data 13))
    (-(m.data 0 * (m.data 6 * m.data 15 - m.data 7 * m.data 14) -
      m.data 2 * (m.data 4 * m.data 15 - m.data 7 * m.data 12) +
      m.data 3 * (m.data 4 * m.data 14 - m.data 6 * m.data 12)))
    (m.data 0 * (m.data 5 * m.data 15 - m.data 7 * m.data 13) -
      m.data 1 * (m.data 4 * m.data 15 - m.data 7 * m.data 12) +
      m.data 3 * (m.data 4 * m.data 13 - m.data 5 * m.data 12))
    (-(m.data 0 * (m.data 5 * m.data 14 - m.data 6 * m.data 13) -
      m.data 1 * (m.data 4 * m.data 14 - m.data 6 * m.data 12) +
      m.data 2 * (m.data 4 * m.data 13 - m.data 5 * m.data 12)))
    (-(m.data 1 * (m.data 6 * m.data 11 - m.data 7 * m.data 10) -
      m.data 2 * (m.data 5 * m.data 11 - m.data 7 * m.data 9) +
      m.data 3 * (m.data 5 * m.data 10 - m.data 6 * m.data 9)))
    (m.data 0 * (m.data 6 * m.data 11 - m.data 7 * m.data 10) -
      m.data 2 * (m.data 4 * m.data 11 - m.data 7 * m.data 8) +
      m.data 3 * (m.data 4 * m.data 10 - m.data 6 * m.data 8))
    (-(m.data 0 * (m.data 5 * m.data 11 - m.data 7 * m.data 9) -
      m.data 1 * (m.data 4 * m.data 11 - m.data 7 * m.data 8) +
      m.data 3 * (m.data 4 * m.data 9 - m.data 5 * m.data 8)))
    (m.data 0 * (m.data 5 * m.data 10 - m.data 6 * m.data 9) -
      m.data 1 * (m.data 4 * m.data 10 - m.data 6 * m.data 8) +
      m.data 2 * (m.data 4 * m.data 9 - m.data 5 * m.data 8))

/-- `Mat4::determinant()`: Laplace expansion along the first row, copied
term-for-term from the source (`det += ...; det -= ...; ...`). -/
def Mat4.determinant (m : Mat4) : ℚ :=
  m.data 0 * (m.data 5 * (m.data 10 * m.data 15 - m.data 11 * m.data 14) -
    m.data 6 * (m.data 9 * m.data 15 - m.data 11 * m.data 13) +
    m.data 7 * (m.data 9 * m.data 14 - m.data 10 * m.data 13)) -
  m.data 1 * (m.data 4 * (m.data 10 * m.data 15 - m.data 11 * m.data 14) -
    m.data 6 * (m.data 8 * m.data 15 - m.data 11 * m.data 12) +
    m.data 7 * (m.data 8 * m.data 14 - m.data 10 * m.data 12)) +
  m.data 2 * (m.data 4 * (m.data 9 * m.data 15 - m.data 11 * m.data 13) -
    m.data 5 * (m.data 8 * m.data 15 - m.data 11 * m.data 12) +
    m.data 7 * (m.data 8 * m.data 13 - m.data 9 * m.data 12)) -
  m.data 3 * (m.data 4 * (m.data 9 * m.data 14 - m.data 10 * m.data 13) -
    m.data 5 * (m.data 8 * m.data 14 - m.data 10 * m.data 12) +
    m.data 6 * (m.data 8 * m.data 13 - m.data 9 * m.data 12))

/-- `Mat4::inverse()`:
`result = *this; det = determinant(); if (det == 0.0f) return result;`
then `result.data[i] = cofactor().transpose().data[i] / det` for all 16 `i`
(the loop overwrites every entry of the initial copy). -/
def Mat4.inverse (m : Mat4) : Mat4 :=
  let result := m
  let det := m.determinant
  if det = 0 then result
  else
    let transpose_matrix := m.cofactor.transpose
    ⟨fun p => transpose_matrix.data p / det⟩

/-- `Mat4::translate(Vec3 translation)`: the three assignments
`data[12] += translation.x; data[13] += translation.y; data[14] += translation.z`
applied in sequence to the receiver. -/
def Mat4.translate (m : Mat4) (translation : Vec3) : Mat4 :=
  let d := Function.update m.data 12 (m.data 12 + translation.x)
  let d := Function.update d 13 (d 13 + translation.y)
  let d := Function.update d 14 (d 14 + translation.z)
  ⟨d⟩

/-- `Mat4::scale(Vec3 scale)`: the three assignments
`data[0] *= scale.x; data[5] *= scale.y; data[10] *= scale.z`
applied in sequence to the receiver. -/
def Mat4.scale (m : Mat4) (s : Vec3) : Mat4 :=
  let d := Function.update m.data 0 (m.data 0 * s.x)
  let d := Function.update d 5 (d 5 * s.y)
  let d := Function.update d 10 (d 10 * s.z)
  ⟨d⟩

/-- State-passing form of `Mat4::determinant()`: `(return value, post-state of
the receiver)`.  The source body writes only the local `det`, never
`this->data`, so the receiver's post-state is the incoming receiver. -/
def Mat4.determinantRun (m : Mat4) : ℚ × Mat4 :=
  (m.determinant, m)

/-- State-passing form of `Mat4::transpose()`: the body is a single `return`
of a fresh `Mat4`; `this->data` is never assigned. -/
def Mat4.transposeRun (m : Mat4) : Mat4 × Mat4 :=
  (m.transpose, m)

/-- State-passing form of `Mat4::cofactor()`: every assignment in the body
targets the local `result`, never `this->data`. -/
def Mat4.cofactorRun (m : Mat4) : Mat4 × Mat4 :=
  (m.cofactor, m)

/-- State-passing form of `Mat4::inverse()`: every assignment in the body
targets the locals `result`, `det` and `transpose_matrix`, never
`this->data`. -/
def Mat4.inverseRun (m : Mat4) : Mat4 × Mat4 :=
  (m.inverse, m)

/-- `Quat::conjugate()`: `Quat(-i, -j, -k, r)`. -/
def Quat.conjugate (q : Quat) : Quat :=
  ⟨-q.i, -q.j, -q.k, q.r⟩

/-- `Quat::operator*(const Quat &b)`: the Hamilton product as written in the
source. -/
def Quat.mul (a b : Quat) : Quat :=
  ⟨a.i * b.r + a.j * b.k - a.k * b.j + a.r * b.i,
   -a.i * b.k + a.j * b.r + a.k * b.i + a.r * b.j,
   a.i * b.j - a.j * b.i + a.k * b.r + a.r * b.k,
   -a.i * b.i - a.j * b.j - a.k * b.k + a.r * b.r⟩

/-- `Quat::operator*(const Vec4 &v)`:
`q = Quat(v.x, v.y, v.z, 0); result = q * conjugate(); result = *this * result;
return Vec4(result.i, result.j, result.k, 1.0f)`. -/
def Quat.mulVec4 (q : Quat) (v : Vec4) : Vec4 :=
  let qv : Quat := ⟨v.x, v.y, v.z, 0⟩
  let result := qv.mul q.conjugate
  let result := q.mul result
  ⟨result.i, result.j, result.k, 1⟩

noncomputable section

/-- `Vec3` over `ℝ`, for the operations that involve `sqrt`/`sin`/`cos`. -/
structure Vec3R where
  x : ℝ
  y : ℝ
  z : ℝ

/-- `Vec4` over `ℝ`. -/
structure Vec4R where
  x : ℝ
  y : ℝ
  z : ℝ
  w : ℝ

/-- `Vec3::dot(const Vec3 &other)`: `x*other.x + y*other.y + z*other.z`. -/
def Vec3R.dot (a b : Vec3R) : ℝ :=
  a.x * b.x + a.y * b.y + a.z * b.z

/-- `Vec3::length()`: `sqrt(dot(*this))`. -/
def Vec3R.length (v : Vec3R) : ℝ :=
  Real.sqrt (v.dot v)

/-- The all-zero `Vec3` (the default-constructed value). -/
def Vec3R.zero : Vec3R :=
  ⟨0, 0, 0⟩

/-- IEEE float division with definedness tracking: dividing by zero yields a
non-finite value (`NaN` for `0/0`, `±Inf` otherwise), modelled as `none`. -/
def fdivO (x y : ℝ) : Option ℝ :=
  if y = 0 then none else some (x / y)

/-- `Vec3::operator/(float value)` with definedness tracking: each component
is divided by the scalar; the result is finite iff every component division
is. -/
def Vec3R.divScalarO (v : Vec3R) (s : ℝ) : Option Vec3R :=
  match fdivO v.x s, fdivO v.y s, fdivO v.z s with
  | some a, some b, some c => some ⟨a, b, c⟩
  | _, _, _ => none

/-- `Vec3::normalize()`: `return *this / length();` — no guard on the length,
translated with the definedness-tracking division. -/
def Vec3R.normalizeO (v : Vec3R) : Option Vec3R :=
  v.divScalarO v.length

/-- `Quat` over `ℝ`. -/
structure QuatR where
  i : ℝ
  j : ℝ
  k : ℝ
  r : ℝ

/-- `Quat::dot(const Quat &b)`: `i*b.i + j*b.j + k*b.k + r*b.r`. -/
def QuatR.dot (a b : QuatR) : ℝ :=
  a.i * b.i + a.j * b.j + a.k * b.k + a.r * b.r

/-- `Quat::conjugate()` over `ℝ`. -/
def QuatR.conjugate (q : QuatR) : QuatR :=
  ⟨-q.i, -q.j, -q.k, q.r⟩

/-- `Quat::operator*(const Quat &b)` over `ℝ`, copied term-for-term. -/
def QuatR.mul (a b : QuatR) : QuatR :=
  ⟨a.i * b.r + a.j * b.k - a.k * b.j + a.r * b.i,
   -a.i * b.k + a.j * b.r + a.k * b.i + a.r * b.j,
   a.i * b.j - a.j * b.i + a.k * b.r + a.r * b.k,
   -a.i * b.i - a.j * b.j - a.k * b.k + a.r * b.r⟩

/-- `Quat::slerp(Quat &a, const Quat &b, float t)`, translated branch for
branch: the early return when `abs(cos_half_theta) >= 1.0f`, the
linear-average fallback when `abs(sin_half_theta) < 0.001f`, and the general
spherical-interpolation case. -/
def QuatR.slerp (a b : QuatR) (t : ℝ) : QuatR :=
  let cos_half_theta := a.dot b
  if 1 ≤ |cos_half_theta| then a
  else
    let half_theta := Real.arccos cos_half_theta
    let sin_half_theta := Real.sqrt (1 - cos_half_theta * cos_half_theta)
    if |sin_half_theta| < 0.001 then
      ⟨a.i * 0.5 + b.i * 0.5,
       a.j * 0.5 + b.j * 0.5,
       a.k * 0.5 + b.k * 0.5,
       a.r * 0.5 + b.r * 0.5⟩
    else
      let ratio_a := Real.sin ((1 - t) * half_theta) / sin_half_theta
      let ratio_b := Real.sin (t * half_theta) / sin_half_theta
      ⟨a.i * ratio_a + b.i * ratio_b,
       a.j * ratio_a + b.j * ratio_b,
       a.k * ratio_a + b.k * ratio_b,
       a.r * ratio_a + b.r * ratio_b⟩

/-- `Quat::from_axis_angle(const Vec3 &axis, float angle)`:
`half_angle = angle / 2; s = sin(half_angle);
 Quat(axis.x*s, axis.y*s, axis.z*s, cos(half_angle))`. -/
def QuatR.from_axis_angle (axis : Vec3R) (angle : ℝ) : QuatR :=
  let half_angle := angle / 2
  let s := Real.sin half_angle
  ⟨axis.x * s, axis.y * s, axis.z * s, Real.cos half_angle⟩

/-- `Quat::operator*(const Vec4 &v)` over `ℝ`. -/
def QuatR.mulVec4 (q : QuatR) (v : Vec4R) : Vec4R :=
  let qv : QuatR := ⟨v.x, v.y, v.z, 0⟩
  let result := qv.mul q.conjugate
  let result := q.mul result
  ⟨result.i, result.j, result.k, 1⟩

/-- `Quat::operator*(const Vec3 &v)`:
`result = *this * Vec4(v.x, v.y, v.z, 1.0f); Vec3(result.x, result.y, result.z)`. -/
def QuatR.mulVec3 (q : QuatR) (v : Vec3R) : Vec3R :=
  let result := q.mulVec4 ⟨v.x, v.y, v.z, 1⟩
  ⟨result.x, result.y, result.z⟩

end

/-- C1, counterexample: the claim asserts `Mat4::ortho(-1,1,-1,1,1,-1)` has
`data[10] = -1`; with these arguments `near = 1` and `far = -1`, so
`data[10] = -2/(far-near) = -2/(-2) = 1`, and the claimed entry is wrong. -/
theorem ortho_symmetric_box_entry10_not_neg_one :
    (Mat4.ortho (-1) 1 (-1) 1 1 (-1)).data ⟨10, by omega⟩ ≠ -1 := by
  simp [Mat4.ortho, Mat4.identity, Mat4.mk16, Function.update]
  norm_num

/-- C1 (amended): `Mat4::ortho(-1,1,-1,1,1,-1)` equals the literal reference
matrix with `data[0] = 1`, `data[5] = 1`, `data[10] = 1` (not `-1`), all
translation terms (`data[12]`, `data[13]`, `data[14]`) equal to `0`,
`data[15] = 1`, and every other entry `0` — i.e. exactly the identity
matrix. -/
theorem ortho_symmetric_box_is_identity_matrix :
    Mat4.ortho (-1) 1 (-1) 1 1 (-1) =
      Mat4.mk16 1 0 0 0
                0 1 0 0
                0 0 1 0
                0 0 0 1 := by
  ext p
  fin_cases p <;>
    simp [Mat4.ortho, Mat4.identity, Mat4.mk16, Function.update] <;> norm_num

/-- C2: for every `Mat4` `M` with `M.determinant() == 0.0` exactly,
`M.inverse()` returns a copy of `M` with all 16 entries unchanged, and the
receiver `M` itself is left unmodified (the state-passing form returns the
pair `(M, M)`); no failure is signalled. -/
theorem inverse_singular_returns_receiver (M : Mat4)
    (h : M.determinant = 0) :
    M.inverse = M ∧ M.inverseRun = (M, M) := by
  constructor
  · simp [Mat4.inverse, h]
  · simp [Mat4.inverseRun, Mat4.inverse, h]

/-- Witness for C2 at the all-zero matrix, whose determinant is `0`. -/
theorem inverse_singular_returns_receiver_witness :
    (Mat4.mk16 0 0 0 0 0 0 0 0 0 0 0 0 0 0 0 0).determinant = 0 ∧
      ((Mat4.mk16 0 0 0 0 0 0 0 0 0 0 0 0 0 0 0 0).inverse =
          Mat4.mk16 0 0 0 0 0 0 0 0 0 0 0 0 0 0 0 0 ∧
        (Mat4.mk16 0 0 0 0 0 0 0 0 0 0 0 0 0 0 0 0).inverseRun =
          (Mat4.mk16 0 0 0 0 0 0 0 0 0 0 0 0 0 0 0 0,
           Mat4.mk16 0 0 0 0 0 0 0 0 0 0 0 0 0 0 0 0)) :=
  ⟨by norm_num [Mat4.determinant, Mat4.mk16],
   inverse_singular_returns_receiver _
     (by norm_num [Mat4.determinant, Mat4.mk16])⟩

/-- C7: for every `Mat4` `M`, `Mat4::identity() * M == M` and
`M * Mat4::identity() == M`, entry for entry. -/
theorem identity_mul_and_mul_identity (M : Mat4) :
    Mat4.identity.mul M = M ∧ M.mul Mat4.identity = M := by
  constructor <;>
    · ext p
      obtain ⟨pv, hp⟩ := p
      interval_cases pv <;>
        simp only [Mat4.mul, Mat4.identity, Mat4.mk16] <;> ring

/-- C4: for all `Mat4` values `A`, `B` and all `i, j` in `0..3`, the product
`C = A * B` satisfies `C.data[i*4+j] = Σ_k A.data[i*4+k] * B.data[k*4+j]`. -/
theorem mul_entry_eq_row_col_sum (A B : Mat4) (i j : Fin 4) :
    (A.mul B).data ⟨i.val * 4 + j.val, by have := i.isLt; have := j.isLt; omega⟩ =
      ∑ k : Fin 4,
        A.data ⟨i.val * 4 + k.val, by have := i.isLt; have := k.isLt; omega⟩ *
        B.data ⟨k.val * 4 + j.val, by have := k.isLt; have := j.isLt; omega⟩ := by
  obtain ⟨iv, hi⟩ := i
  obtain ⟨jv, hj⟩ := j
  interval_cases iv <;> interval_cases jv <;>
    simp only [Mat4.mul, Fin.sum_univ_four, Fin.val_mk,
      show ((0 : Fin 4)).val = 0 from rfl, show ((1 : Fin 4)).val = 1 from rfl,
      show ((2 : Fin 4)).val = 2 from rfl, show ((3 : Fin 4)).val = 3 from rfl]

/-- C8: `M.translate(t)` adds `t.x, t.y, t.z` onto entries `12, 13, 14` and
leaves the other 13 entries unchanged; `M.scale(s)` multiplies entries
`0, 5, 10` by `s.x, s.y, s.z` and leaves the other 13 entries unchanged. -/
theorem translate_scale_entry_effects (M : Mat4) (t s : Vec3) (p : Fin 16) :
    (M.translate t).data p =
      (if p.val = 12 then M.data p + t.x
       else if p.val = 13 then M.data p + t.y
       else if p.val = 14 then M.data p + t.z
       else M.data p) ∧
    (M.scale s).data p =
      (if p.val = 0 then M.data p * s.x
       else if p.val = 5 then M.data p * s.y
       else if p.val = 10 then M.data p * s.z
       else M.data p) := by
  obtain ⟨pv, hp⟩ := p
  interval_cases pv <;>
    constructor <;>
    simp [Mat4.translate, Mat4.scale, Function.update]

/-- C9: `determinant()`, `transpose()`, `cofactor()` and `inverse()` leave
the receiver unchanged: the state-passing form of each returns the incoming
matrix as the receiver's post-state (these queries produce fresh values and
never mutate `this`, although they are not declared `const`). -/
theorem query_ops_preserve_receiver (M : Mat4) :
    M.determinantRun.2 = M ∧ M.transposeRun.2 = M ∧
      M.cofactorRun.2 = M ∧ M.inverseRun.2 = M :=
  ⟨rfl, rfl, rfl, rfl⟩

/-- C10: for every `Quat` `q` and every `Vec4` `v`, the product `q * v` has
`w` component exactly `1.0`, and the result does not depend on `v.w`: inputs
differing only in `w` give identical results. -/
theorem quat_mulVec4_w_one_and_independent_of_w
    (q : Quat) (a b c d e : ℚ) :
    (q.mulVec4 ⟨a, b, c, d⟩).w = 1 ∧
      q.mulVec4 ⟨a, b, c, d⟩ = q.mulVec4 ⟨a, b, c, e⟩ :=
  ⟨rfl, rfl⟩

/-- C3: for every `Vec3` `v` other than the zero vector, `v.normalize()` is
finite and `v.normalize().length()` equals `1` exactly (hence within float
epsilon); `normalize()` divides by `length()` with no guard, so on the zero
vector every component is divided by zero and the result is non-finite
(`NaN`/`Inf`, modelled as `none`), propagated rather than trapped. -/
theorem normalize_unit_length_and_zero_unguarded (v : Vec3R)
    (h : v ≠ Vec3R.zero) :
    (∃ u, v.normalizeO = some u ∧ u.length = 1) ∧
      Vec3R.zero.normalizeO = none := by
  have hzero : Vec3R.zero.normalizeO = none := by
    simp [Vec3R.normalizeO, Vec3R.divScalarO, fdivO, Vec3R.length, Vec3R.dot,
      Vec3R.zero]
  refine ⟨?_, hzero⟩
  have hd : 0 < v.x * v.x + v.y * v.y + v.z * v.z := by
    have hne : v.x ≠ 0 ∨ v.y ≠ 0 ∨ v.z ≠ 0 := by
      by_contra hc
      push_neg at hc
      obtain ⟨x, y, z⟩ := v
      exact h (by simp only [Vec3R.zero]; simp_all)
    rcases hne with h1 | h1 | h1 <;>
      nlinarith [mul_self_nonneg v.x, mul_self_nonneg v.y, mul_self_nonneg v.z,
        mul_self_pos.mpr h1]
  have hl : 0 < v.length := by
    simp only [Vec3R.length, Vec3R.dot]
    exact Real.sqrt_pos.mpr hd
  have hlne : v.length ≠ 0 := hl.ne'
  have hll : v.length * v.length = v.x * v.x + v.y * v.y + v.z * v.z := by
    simp only [Vec3R.length, Vec3R.dot]
    exact Real.mul_self_sqrt hd.le
  refine ⟨⟨v.x / v.length, v.y / v.length, v.z / v.length⟩, ?_, ?_⟩
  · simp [Vec3R.normalizeO, Vec3R.divScalarO, fdivO, hlne]
  · have key : v.x / v.length * (v.x / v.length) +
        v.y / v.length * (v.y / v.length) +
        v.z / v.length * (v.z / v.length) = 1 := by
      field_simp
      linarith [hll]
    simp only [Vec3R.length, Vec3R.dot] at key ⊢
    rw [key, Real.sqrt_one]

/-- Witness for C3 at `v = (1, 0, 0)`. -/
theorem normalize_unit_length_witness :
    (⟨1, 0, 0⟩ : Vec3R) ≠ Vec3R.zero ∧
      ((∃ u, (⟨1, 0, 0⟩ : Vec3R).normalizeO = some u ∧ u.length = 1) ∧
        Vec3R.zero.normalizeO = none) :=
  ⟨by simp [Vec3R.zero],
   normalize_unit_length_and_zero_unguarded ⟨1, 0, 0⟩ (by simp [Vec3R.zero])⟩

/-- C5: for every unit quaternion `a` and `t ∈ [0, 1]`,
`slerp(a, a, t)` returns `a` with all four components unchanged; and for any
`b`, whenever `|a.dot(b)| ≥ 1.0`, `slerp(a, b, t)` returns `a` unchanged. -/
theorem slerp_identical_endpoints (a b : QuatR) (t : ℝ)
    (hu : a.i * a.i + a.j * a.j + a.k * a.k + a.r * a.r = 1)
    (ht0 : 0 ≤ t) (ht1 : t ≤ 1) :
    QuatR.slerp a a t = a ∧ (1 ≤ |QuatR.dot a b| → QuatR.slerp a b t = a) := by
  constructor
  · have hda : QuatR.dot a a = 1 := by
      simp only [QuatR.dot]
      exact hu
    simp [QuatR.slerp, hda]
  · intro hab
    simp [QuatR.slerp, hab]

/-- Witness for C5 at the identity quaternion `a = b = (0,0,0,1)`, `t = 1/2`. -/
theorem slerp_identical_endpoints_witness :
    ((0 : ℝ) * 0 + 0 * 0 + 0 * 0 + 1 * 1 = 1) ∧ (0 : ℝ) ≤ 1 / 2 ∧
      (1 : ℝ) / 2 ≤ 1 ∧
      (QuatR.slerp ⟨0, 0, 0, 1⟩ ⟨0, 0, 0, 1⟩ (1 / 2) = ⟨0, 0, 0, 1⟩ ∧
        (1 ≤ |QuatR.dot ⟨0, 0, 0, 1⟩ ⟨0, 0, 0, 1⟩| →
          QuatR.slerp ⟨0, 0, 0, 1⟩ ⟨0, 0, 0, 1⟩ (1 / 2) = ⟨0, 0, 0, 1⟩)) :=
  ⟨by norm_num, by norm_num, by norm_num,
   slerp_identical_endpoints ⟨0, 0, 0, 1⟩ ⟨0, 0, 0, 1⟩ (1 / 2)
     (by norm_num) (by norm_num) (by norm_num)⟩

/-- C6: rotating `Vec3(1,0,0)` by `Quat::from_axis_angle(Vec3(0,0,1), π/2)`
via the quaternion-vector product yields exactly `Vec3(0,1,0)` in exact
arithmetic (hence within float epsilon in the source). -/
theorem rotate_unit_x_quarter_turn_about_z :
    QuatR.mulVec3 (QuatR.from_axis_angle ⟨0, 0, 1⟩ (Real.pi / 2)) ⟨1, 0, 0⟩ =
      ⟨0, 1, 0⟩ := by
  have hq : Real.pi / 2 / 2 = Real.pi / 4 := by ring
  have hs2 : Real.sqrt 2 * Real.sqrt 2 = 2 := Real.mul_self_sqrt (by norm_num)
  simp only [QuatR.mulVec3, QuatR.mulVec4, QuatR.mul, QuatR.conjugate,
    QuatR.from_axis_angle, hq, Real.sin_pi_div_four, Real.cos_pi_div_four,
    Vec3R.mk.injEq]
  refine ⟨?_, ?_, ?_⟩ <;> nlinarith [hs2]
